import Mathlib

/-!
Verification of the notes-to-questions generator (`src/backend/chatbot.py`).

The Python module is shallowly embedded below.  Strings are modelled by
Lean `String` (a list of unicode scalar characters, matching Python
code-point indexing for the operations used here); Python's `json.loads`
is modelled by an executable fueled recursive-descent parser `json_loads`
over the JSON grammar the standard library accepts (objects, arrays,
strings with the standard escapes, numbers, `true`/`false`/`null`,
whitespace as space/tab/newline/carriage-return); Python exceptions from
the external model backends are modelled by `ExtOutcome`; the two local
model integrations (LlamaCpp, GPT4All) are external engines and are
modelled by an oracle environment `Env` mapping a model path and prompt
to the engine's outcome.  The module-level `print` calls of the
orchestrator are modelled by an event log so that the order of backend
attempts is observable.
-/

/-- A JSON value as produced by Python's `json.loads`.  Numbers are kept in
decimal mantissa/exponent form (`num m e` denotes `m * 10 ^ e`); an integer
literal `k` parses to `num k 0`.  Objects keep Python `dict` semantics for
duplicate keys: first-occurrence position, last-occurrence value
(see `dedupFields`).  The nonstandard constants `NaN`/`Infinity` accepted by
Python and lone-surrogate `\uXXXX` escapes are outside the modelled subset;
no input considered in this development uses them. -/
inductive JsonValue where
  | null
  | bool (b : Bool)
  | num (mantissa : Int) (exp10 : Int)
  | str (s : String)
  | arr (items : List JsonValue)
  | obj (fields : List (String × JsonValue))

/-- JSON whitespace characters skipped by Python's decoder. -/
def jsonWs (c : Char) : Bool := c == ' ' || c == '\t' || c == '\n' || c == '\r'

def skipWs (cs : List Char) : List Char := cs.dropWhile jsonWs

def isJsonDigit (c : Char) : Bool := 48 ≤ c.toNat && c.toNat ≤ 57

def digitVal (c : Char) : Nat := c.toNat - 48

def hexDigitVal (c : Char) : Option Nat :=
  if 48 ≤ c.toNat && c.toNat ≤ 57 then some (c.toNat - 48)
  else if 97 ≤ c.toNat && c.toNat ≤ 102 then some (c.toNat - 97 + 10)
  else if 65 ≤ c.toNat && c.toNat ≤ 70 then some (c.toNat - 65 + 10)
  else none

/-- Body of a JSON string literal after the opening quote: returns the decoded
characters and the remaining input after the closing quote. -/
def parseStrBody : Nat → List Char → Option (List Char × List Char)
  | 0, _ => none
  | _, [] => none
  | fuel + 1, c :: cs =>
    if c == '"' then some ([], cs)
    else if c == '\\' then
      match cs with
      | [] => none
      | e :: cs2 =>
        if e == '"' then
          match parseStrBody fuel cs2 with
          | some (body, r) => some ('"' :: body, r)
          | none => none
        else if e == '\\' then
          match parseStrBody fuel cs2 with
          | some (body, r) => some ('\\' :: body, r)
          | none => none
        else if e == '/' then
          match parseStrBody fuel cs2 with
          | some (body, r) => some ('/' :: body, r)
          | none => none
        else if e == 'b' then
          match parseStrBody fuel cs2 with
          | some (body, r) => some ('\x08' :: body, r)
          | none => none
        else if e == 'f' then
          match parseStrBody fuel cs2 with
          | some (body, r) => some ('\x0c' :: body, r)
          | none => none
        else if e == 'n' then
          match parseStrBody fuel cs2 with
          | some (body, r) => some ('\n' :: body, r)
          | none => none
        else if e == 'r' then
          match parseStrBody fuel cs2 with
          | some (body, r) => some ('\r' :: body, r)
          | none => none
        else if e == 't' then
          match parseStrBody fuel cs2 with
          | some (body, r) => some ('\t' :: body, r)
          | none => none
        else if e == 'u' then
          match cs2 with
          | h1 :: h2 :: h3 :: h4 :: cs3 =>
            match hexDigitVal h1, hexDigitVal h2, hexDigitVal h3, hexDigitVal h4 with
            | some a, some b, some c3, some d =>
              let code := ((a * 16 + b) * 16 + c3) * 16 + d
              if code < 55296 then
                match parseStrBody fuel cs3 with
                | some (body, r) => some (Char.ofNat code :: body, r)
                | none => none
              else if 57343 < code then
                match parseStrBody fuel cs3 with
                | some (body, r) => some (Char.ofNat code :: body, r)
                | none => none
              else none
            | _, _, _, _ => none
          | _ => none
        else none
    else if c.toNat < 32 then none
    else
      match parseStrBody fuel cs with
      | some (body, r) => some (c :: body, r)
      | none => none

/-- Longest leading run of decimal digits. -/
def takeDigits : List Char → List Char × List Char
  | [] => ([], [])
  | c :: cs =>
    if isJsonDigit c then
      match takeDigits cs with
      | (ds, r) => (c :: ds, r)
    else ([], c :: cs)

def digitsToNat (ds : List Char) : Nat := ds.foldl (fun acc c => acc * 10 + digitVal c) 0

/-- Integer part of a JSON number: `0`, or a nonzero digit followed by digits. -/
def parseIntPart : List Char → Option (List Char × List Char)
  | [] => none
  | c :: cs =>
    if c == '0' then some (['0'], cs)
    else if isJsonDigit c then
      match takeDigits cs with
      | (ds, r) => some (c :: ds, r)
    else none

/-- Fractional part: a dot followed by at least one digit, else nothing. -/
def parseFrac (cs : List Char) : List Char × List Char :=
  match cs with
  | '.' :: r =>
    match takeDigits r with
    | ([], _) => ([], cs)
    | (ds, rr) => (ds, rr)
  | _ => ([], cs)

/-- Exponent part: `e`/`E`, optional sign, at least one digit, else nothing. -/
def parseExp (cs : List Char) : Int × List Char :=
  match cs with
  | c :: r =>
    if c == 'e' || c == 'E' then
      match r with
      | '+' :: rr =>
        match takeDigits rr with
        | ([], _) => (0, cs)
        | (ds, r3) => ((digitsToNat ds : Int), r3)
      | '-' :: rr =>
        match takeDigits rr with
        | ([], _) => (0, cs)
        | (ds, r3) => (-(digitsToNat ds : Int), r3)
      | _ =>
        match takeDigits r with
        | ([], _) => (0, cs)
        | (ds, r3) => ((digitsToNat ds : Int), r3)
    else (0, cs)
  | [] => (0, [])

/-- A JSON number, per the grammar of Python's `json` module. -/
def parseNumber (cs : List Char) : Option (JsonValue × List Char) :=
  let signRest : Bool × List Char :=
    match cs with
    | '-' :: r => (true, r)
    | _ => (false, cs)
  match parseIntPart signRest.2 with
  | none => none
  | some (ids, r1) =>
    match parseFrac r1 with
    | (fds, r2) =>
      match parseExp r2 with
      | (ex, r3) =>
        let mantNat := digitsToNat (ids ++ fds)
        let mant : Int := if signRest.1 then -(mantNat : Int) else (mantNat : Int)
        some (.num mant (ex - fds.length), r3)

/-- Python `dict` construction from a key/value list: position of the first
occurrence of a key, value of its last occurrence. -/
def dedupFields : List (String × JsonValue) → List (String × JsonValue)
  | [] => []
  | (k, v) :: rest =>
    let r := dedupFields rest
    match r.find? (fun kv => kv.1 == k) with
    | some kv2 => (k, kv2.2) :: r.filter (fun kv => !(kv.1 == k))
    | none => (k, v) :: r

/-- Parsing mode: a single value, the items of an array after `[`, or the
fields of an object after an opening brace. -/
inductive PMode where
  | val
  | items
  | fields

/-- Result of one parsing step, tagged by mode. -/
inductive PRes where
  | v (val : JsonValue)
  | items (vs : List JsonValue)
  | fields (fs : List (String × JsonValue))

/-- Fueled recursive-descent parser for the JSON grammar accepted by Python's
`json.loads`.  The fuel only bounds recursion depth; `json_loads` supplies
enough fuel for any input, so exhaustion never fires there. -/
def parseP : Nat → PMode → List Char → Option (PRes × List Char)
  | 0, _, _ => none
  | fuel + 1, .val, cs =>
    match skipWs cs with
    | 'n' :: 'u' :: 'l' :: 'l' :: rest => some (.v .null, rest)
    | 't' :: 'r' :: 'u' :: 'e' :: rest => some (.v (.bool true), rest)
    | 'f' :: 'a' :: 'l' :: 's' :: 'e' :: rest => some (.v (.bool false), rest)
    | '"' :: rest =>
      match parseStrBody fuel rest with
      | some (body, r) => some (.v (.str (String.mk body)), r)
      | none => none
    | '[' :: rest =>
      (match skipWs rest with
       | ']' :: r => some (.v (.arr []), r)
       | r2 =>
         match parseP fuel .items r2 with
         | some (.items vs, r) => some (.v (.arr vs), r)
         | _ => none)
    | '{' :: rest =>
      (match skipWs rest with
       | '}' :: r => some (.v (.obj []), r)
       | r2 =>
         match parseP fuel .fields r2 with
         | some (.fields fs, r) => some (.v (.obj (dedupFields fs)), r)
         | _ => none)
    | rest =>
      match parseNumber rest with
      | some (v, r) => some (.v v, r)
      | none => none
  | fuel + 1, .items, cs =>
    match parseP fuel .val cs with
    | some (.v v, r) =>
      (match skipWs r with
       | ',' :: r2 =>
         (match parseP fuel .items r2 with
          | some (.items vs, r3) => some (.items (v :: vs), r3)
          | _ => none)
       | ']' :: r2 => some (.items [v], r2)
       | _ => none)
    | _ => none
  | fuel + 1, .fields, cs =>
    match skipWs cs with
    | '"' :: rest =>
      match parseStrBody fuel rest with
      | none => none
      | some (key, r) =>
        match skipWs r with
        | ':' :: r2 =>
          (match parseP fuel .val r2 with
           | some (.v v, r3) =>
             (match skipWs r3 with
              | ',' :: r4 =>
                (match parseP fuel .fields r4 with
                 | some (.fields fs, r5) => some (.fields ((String.mk key, v) :: fs), r5)
                 | _ => none)
              | '}' :: r4 => some (.fields [(String.mk key, v)], r4)
              | _ => none)
           | _ => none)
        | _ => none
    | _ => none

/-- Model of Python `json.loads`: `some v` when the whole input (modulo
surrounding whitespace) is one JSON value, `none` when `json.loads` raises
`json.JSONDecodeError`. -/
def json_loads (s : String) : Option JsonValue :=
  match parseP (2 * s.data.length + 2) .val s.data with
  | some (.v v, rest) => if (skipWs rest).isEmpty then some v else none
  | _ => none

/-- Index of the first character satisfying `p`, as used by Python `str.find`. -/
def findIdxFrom (p : Char → Bool) : List Char → Option Nat
  | [] => none
  | c :: cs => if p c then some 0 else (findIdxFrom p cs).map (· + 1)

/-- Python `s.find(c)`: index of the first occurrence of `c`, `-1` if absent. -/
def pyFind (s : String) (c : Char) : Int :=
  match findIdxFrom (· == c) s.data with
  | some i => (i : Int)
  | none => -1

/-- Python `s.rfind(c)`: index of the last occurrence of `c`, `-1` if absent. -/
def pyRFind (s : String) (c : Char) : Int :=
  match findIdxFrom (· == c) s.data.reverse with
  | some i => (s.data.length : Int) - 1 - (i : Int)
  | none => -1

/-- The recovery slice of `safe_json_parse`: the inclusive substring from the
first `[` to the last `]`, provided both exist and the `]` comes strictly
after the `[` (Python `s[start:end+1]` under the guard
`start != -1 and end != -1 and end > start`). -/
def bracketSlice (s : String) : Option String :=
  if pyFind s '[' ≠ -1 ∧ pyRFind s ']' ≠ -1 ∧ pyFind s '[' < pyRFind s ']' then
    some (String.mk ((s.data.drop (pyFind s '[').toNat).take
      ((pyRFind s ']').toNat + 1 - (pyFind s '[').toNat)))
  else none

/-- `safe_json_parse` from `src/backend/chatbot.py`: strict parse of the whole
string; on `JSONDecodeError`, strict parse of the bracket slice when the guard
holds; otherwise (or when that parse also fails) the empty list.  The
`print`ed warning on the empty-list path is not part of the value. -/
def safe_json_parse (raw : String) : JsonValue :=
  match json_loads raw with
  | some v => v
  | none =>
    match bracketSlice raw with
    | some sub => (json_loads sub).getD (.arr [])
    | none => .arr []

/-- Characters stripped by Python `str.strip()` (ASCII whitespace; the inputs
of this development contain no other unicode whitespace). -/
def isPySpace (c : Char) : Bool :=
  c == ' ' || c == '\t' || c == '\n' || c == '\r' || c == '\x0b' || c == '\x0c'

/-- Split a character list at every separator character, keeping (possibly
empty) pieces.  Composed with the strip-and-discard-empties step below this
has the same result as Python `re.split` with a `+`-repeated class, whose
only difference is that it never produces empty pieces between adjacent
separators. -/
def splitChars (p : Char → Bool) : List Char → List (List Char)
  | [] => [[]]
  | c :: cs =>
    if p c then [] :: splitChars p cs
    else
      match splitChars p cs with
      | [] => [[c]]
      | g :: gs => (c :: g) :: gs

/-- Python `str.strip()` on a character list. -/
def pyStrip (l : List Char) : List Char :=
  ((l.dropWhile isPySpace).reverse.dropWhile isPySpace).reverse

/-- The separator class of `re.split(r'[\n\.]+', notes)`. -/
def sepChar (c : Char) : Bool := c == '\n' || c == '.'

/-- The `sentences` list of `mock_generate`:
`[s.strip() for s in re.split(r'[\n\.]+', notes) if s.strip()]`. -/
def sentenceUnits (notes : String) : List String :=
  (((splitChars sepChar notes.data).map pyStrip).filter (fun l => !l.isEmpty)).map String.mk

/-- One question/answer/source-excerpt record (a Python dict with keys
`question`, `answer`, `text`). -/
structure QARecord where
  question : String
  answer : String
  text : String
  deriving DecidableEq

/-- Python string slice `s[:n]` for a nonnegative literal `n`. -/
def pyTakeStr (n : Nat) (s : String) : String := String.mk (s.data.take n)

/-- Python list slice `l[:n]` for an arbitrary integer `n`: the first `n`
elements when `n ≥ 0`, everything but the last `-n` elements when `n < 0`. -/
def pySliceTo (l : List α) (n : Int) : List α :=
  if 0 ≤ n then l.take n.toNat else l.take (l.length - (-n).toNat)

/-- The record `mock_generate` builds from one sentence-like unit. -/
def mkBaseRecord (s : String) : QARecord :=
  { question := "What is the main idea of: \x27" ++ pyTakeStr 40 s ++ "...\x27"
    answer := "The main idea is that " ++ pyTakeStr 80 s ++ "."
    text := s }

/-- The padding record appended by `mock_generate`'s `while` loop. -/
def padRecord (sentences : List String) : QARecord :=
  { question := "Summarize a key idea from the notes."
    answer := "This section explains one of the main concepts."
    text := sentences.headD "" }

/-- `mock_generate` from `src/backend/chatbot.py`.  The `for` loop over
`sentences[:num_questions]` gives the base records; the `while` loop pads
with `padRecord` until the count reaches `num_questions` (no iterations when
the count already does, in particular for non-positive `num_questions`). -/
def mock_generate (notes : String) (numQuestions : Int) : List QARecord :=
  let sentences := sentenceUnits notes
  let base := (pySliceTo sentences numQuestions).map mkBaseRecord
  base ++ List.replicate ((numQuestions - (base.length : Int)).toNat) (padRecord sentences)

/-- The prompt text preceding the interpolated question count in
`get_prompt`'s f-string. -/
def promptPart1 : String := "\nYou are a concise study assistant.\nGiven the notes below, generate "

/-- The prompt text between the interpolated question count and the
interpolated notes in `get_prompt`'s f-string. -/
def promptPart2 : String := " question-and-answer pairs.\nEach answer should be short (1-2 sentences) and accurate based on the notes.\nInclude the specific source text from the notes the Q&A is based on.\nReturn ONLY valid JSON: a list of objects with keys \"question\", \"answer\", and \"text\".\n\nExample:\n[\n  \x7b\n    \"question\": \"What is X?\",\n    \"answer\": \"X is ...\",\n    \"text\": \"The sentence or passage from notes about X.\"\n  \x7d\n]\n\nNotes:\n"

/-- `get_prompt` from `src/backend/chatbot.py`: the f-string is translated as
the concatenation of its literal pieces with the rendered question count and
the raw notes interpolated. -/
def get_prompt (notes : String) (numQuestions : Int) : String :=
  promptPart1 ++ toString numQuestions ++ promptPart2 ++ notes ++ "\n"

/-- Outcome of a call into an external engine: a value, or a raised
exception. -/
inductive ExtOutcome (α : Type) where
  | ok (val : α)
  | exn

def ExtOutcome.isExn : ExtOutcome α → Bool
  | .ok _ => false
  | .exn => true

/-- Raw output of the GPT4All engine's `generate`: a single string, or a
sequence (list/tuple) of candidate completions. -/
inductive GptRaw where
  | str (s : String)
  | seq (candidates : List String)

/-- Oracle environment for the two external engines.  Each field maps the
model path and the prompt to the combined outcome of the load-plus-generate
step (`LlamaCpp(...)`/`llm(prompt)` and `GPT4All(...)`/`model.generate(...)`);
any exception in either step is `.exn`.  The fixed engine parameters
(`n_ctx`, `temperature`, `max_tokens`) are constants absorbed by the
oracle. -/
structure Env where
  llamacpp : String → String → ExtOutcome String
  gpt4all : String → String → ExtOutcome GptRaw

/-- `try_llamacpp_generate`: build the prompt, run the engine, parse its raw
text.  Engine exceptions propagate; `safe_json_parse` itself cannot raise. -/
def try_llamacpp_generate (env : Env) (notes : String) (modelPath : String)
    (numQuestions : Int) : ExtOutcome JsonValue :=
  match env.llamacpp modelPath (get_prompt notes numQuestions) with
  | .ok raw => .ok (safe_json_parse raw)
  | .exn => .exn

/-- `try_gpt4all_generate`: as above, but a list/tuple result is first
normalized by `raw = raw[0]`, which raises `IndexError` on an empty
sequence. -/
def try_gpt4all_generate (env : Env) (notes : String) (modelPath : String)
    (numQuestions : Int) : ExtOutcome JsonValue :=
  match env.gpt4all modelPath (get_prompt notes numQuestions) with
  | .ok (.str raw) => .ok (safe_json_parse raw)
  | .ok (.seq []) => .exn
  | .ok (.seq (c :: _)) => .ok (safe_json_parse c)
  | .exn => .exn

/-- The dict literal `mock_generate` appends, as a JSON value. -/
def QARecord.toJson (r : QARecord) : JsonValue :=
  .obj [("question", .str r.question), ("answer", .str r.answer), ("text", .str r.text)]

/-- The observable log of `generate_qa_from_notes`, one event per `print`
call: trying/failed per backend, and the use of the mock generator. -/
inductive LogEvent where
  | tryingLlama
  | llamaFailed
  | tryingGpt
  | gptFailed
  | usingMock
  deriving DecidableEq

/-- The heuristic-path result of the orchestrator as a JSON value. -/
def mockResult (notes : String) (numQuestions : Int) : JsonValue :=
  .arr ((mock_generate notes numQuestions).map QARecord.toJson)

/-- The orchestrator after the LlamaCpp step: the GPT4All attempt guarded by
Python truthiness of the path (`if gpt4all_model_path:`), then the
unconditional mock fallback. -/
def genStage2 (env : Env) (notes : String) (numQuestions : Int)
    (gp : Option String) : JsonValue × List LogEvent :=
  match gp with
  | some p =>
    if p == "" then (mockResult notes numQuestions, [.usingMock])
    else
      match try_gpt4all_generate env notes p numQuestions with
      | .ok v => (v, [.tryingGpt])
      | .exn => (mockResult notes numQuestions, [.tryingGpt, .gptFailed, .usingMock])
  | none => (mockResult notes numQuestions, [.usingMock])

/-- `generate_qa_from_notes` from `src/backend/chatbot.py`, paired with its
log: try LlamaCpp if its path is truthy, catching any exception; then
likewise GPT4All; finally the mock generator. -/
def generate_qa_from_notes_log (env : Env) (notes : String) (numQuestions : Int)
    (lp gp : Option String) : JsonValue × List LogEvent :=
  match lp with
  | some p =>
    if p == "" then genStage2 env notes numQuestions gp
    else
      match try_llamacpp_generate env notes p numQuestions with
      | .ok v => (v, [.tryingLlama])
      | .exn =>
        ((genStage2 env notes numQuestions gp).1,
          .tryingLlama :: .llamaFailed :: (genStage2 env notes numQuestions gp).2)
  | none => genStage2 env notes numQuestions gp

/-- The value returned to the caller of `generate_qa_from_notes`. -/
def generate_qa_from_notes (env : Env) (notes : String) (numQuestions : Int)
    (lp gp : Option String) : JsonValue :=
  (generate_qa_from_notes_log env notes numQuestions lp gp).1

/-- Python truthiness of an optional backend path: present and non-empty. -/
def configured : Option String → Bool
  | none => false
  | some p => !(p == "")

/-- The configured LlamaCpp attempt raises. -/
def llamaAttemptFails (env : Env) (notes : String) (numQuestions : Int) :
    Option String → Bool
  | none => false
  | some p => (try_llamacpp_generate env notes p numQuestions).isExn

/-- The configured GPT4All attempt raises. -/
def gptAttemptFails (env : Env) (notes : String) (numQuestions : Int) :
    Option String → Bool
  | none => false
  | some p => (try_gpt4all_generate env notes p numQuestions).isExn

/-- No backend is configured (truthy), or every configured backend's attempt
raises: exactly the condition under which the source reaches
`mock_generate`. -/
def fallsToMock (env : Env) (notes : String) (numQuestions : Int)
    (lp gp : Option String) : Bool :=
  (!configured lp || llamaAttemptFails env notes numQuestions lp) &&
  (!configured gp || gptAttemptFails env notes numQuestions gp)

/-- An object with exactly the keys `question`, `answer`, `text` in the shape
`mock_generate` produces, each mapped to a string. -/
def isQAObj : JsonValue → Bool
  | .obj [(k1, .str _), (k2, .str _), (k3, .str _)] =>
    k1 == "question" && k2 == "answer" && k3 == "text"
  | _ => false

/-- A sequence of QA records: a JSON array of `isQAObj` objects. -/
def isQASeq : JsonValue → Bool
  | .arr items => items.all isQAObj
  | _ => false

/-- Both parser tiers fail on a raw text: the strict parse raises, and either
no bracket slice exists or its strict parse raises too. -/
def bothTiersFail (raw : String) : Bool :=
  (json_loads raw).isNone &&
  (match bracketSlice raw with
   | some sub => (json_loads sub).isNone
   | none => true)

/-- Environment in which every backend call raises. -/
def envAllFail : Env := ⟨fun _ _ => .exn, fun _ _ => .exn⟩

/-- Environment in which the LlamaCpp engine returns the bare JSON number 5. -/
def envNum : Env := ⟨fun _ _ => .ok "5", fun _ _ => .exn⟩

/-- Environment in which the LlamaCpp engine returns prose with no brackets. -/
def envNoBrackets : Env := ⟨fun _ _ => .ok "no brackets here", fun _ _ => .exn⟩

/-- Environment in which the GPT4All engine returns a list of two candidate
completions. -/
def envSeq : Env := ⟨fun _ _ => .exn, fun _ _ => .ok (.seq ["5", "x"])⟩

set_option maxRecDepth 8000

theorem str_eq_of_data (a b : String) (h : a.data = b.data) : a = b := by
  cases a
  cases b
  cases h
  rfl

theorem strData_append (a b : String) : (a ++ b).data = a.data ++ b.data := by
  cases a
  cases b
  rfl

theorem strAppend_assoc (a b c : String) : a ++ b ++ c = a ++ (b ++ c) := by
  cases a with
  | mk la =>
    cases b with
    | mk lb =>
      cases c with
      | mk lc => exact congrArg String.mk (List.append_assoc la lb lc)

theorem str_ne_empty_of_data_cons (a : String) (c : Char) (l : List Char)
    (h : a.data = c :: l) : a ≠ "" := by
  intro hc
  rw [hc] at h
  exact List.noConfusion h

theorem append_ne_empty_left (a b : String) (h : a ≠ "") : a ++ b ≠ "" := by
  intro hc
  apply h
  have hd := congrArg String.data hc
  rw [strData_append] at hd
  have : a.data = [] := (List.append_eq_nil.mp hd).1
  cases a
  simp_all

theorem mock_generate_length_of_nonneg (notes : String) (n : Int) (h : 0 ≤ n) :
    (mock_generate notes n).length = n.toNat := by
  simp only [mock_generate, pySliceTo, if_pos h, List.length_append, List.length_map,
    List.length_take, List.length_replicate]
  omega

theorem genStage2_fst_of_fails (env : Env) (notes : String) (n : Int) (gp : Option String)
    (h : (!configured gp || gptAttemptFails env notes n gp) = true) :
    (genStage2 env notes n gp).1 = mockResult notes n := by
  cases gp with
  | none => rfl
  | some p =>
    simp only [configured, gptAttemptFails] at h
    cases hp : (p == "") with
    | true => simp [genStage2, hp]
    | false =>
      rw [hp] at h
      simp only [Bool.not_false, Bool.not_true, Bool.false_or] at h
      cases ho : try_gpt4all_generate env notes p n with
      | ok v =>
        rw [ho] at h
        simp [ExtOutcome.isExn] at h
      | exn => simp [genStage2, hp, ho]

theorem generate_fst_of_fallsToMock (env : Env) (notes : String) (n : Int)
    (lp gp : Option String) (h : fallsToMock env notes n lp gp = true) :
    generate_qa_from_notes env notes n lp gp = mockResult notes n := by
  unfold fallsToMock at h
  rw [Bool.and_eq_true] at h
  obtain ⟨h1, h2⟩ := h
  cases lp with
  | none =>
    show (generate_qa_from_notes_log env notes n none gp).1 = _
    simp only [generate_qa_from_notes_log]
    exact genStage2_fst_of_fails env notes n gp h2
  | some p =>
    cases hp : (p == "") with
    | true =>
      show (generate_qa_from_notes_log env notes n (some p) gp).1 = _
      simp only [generate_qa_from_notes_log, hp, if_true]
      exact genStage2_fst_of_fails env notes n gp h2
    | false =>
      simp only [configured, llamaAttemptFails, hp, Bool.not_false, Bool.not_true,
        Bool.false_or] at h1
      cases ho : try_llamacpp_generate env notes p n with
      | ok v =>
        rw [ho] at h1
        simp [ExtOutcome.isExn] at h1
      | exn =>
        show (generate_qa_from_notes_log env notes n (some p) gp).1 = _
        simp only [generate_qa_from_notes_log, hp, if_false, ho]
        exact genStage2_fst_of_fails env notes n gp h2

theorem mem_sentenceUnits_ne_empty (notes : String) (s : String)
    (hs : s ∈ sentenceUnits notes) : s ≠ "" := by
  unfold sentenceUnits at hs
  rcases List.mem_map.mp hs with ⟨l, hl, rfl⟩
  have hne := List.of_mem_filter hl
  intro hc
  have : l = [] := congrArg String.data hc
  rw [this] at hne
  simp at hne

theorem isQASeq_mockResult (notes : String) (n : Int) :
    isQASeq (mockResult notes n) = true := by
  simp only [isQASeq, mockResult, List.all_eq_true]
  intro x hx
  rcases List.mem_map.mp hx with ⟨r, _, rfl⟩
  rfl

/-- C2: for every notes string and positive count, `mock_generate` returns
exactly that many records, and whenever no backend is configured (truthy
path) or every configured backend's attempt raises, `generate_qa_from_notes`
returns the heuristic's list, of exactly that length. -/
theorem c2_heuristic_exact_count (env : Env) (notes : String) (n : Int)
    (lp gp : Option String) (hn : 0 < n)
    (hfall : fallsToMock env notes n lp gp = true) :
    ((mock_generate notes n).length : Int) = n ∧
    ∃ l, generate_qa_from_notes env notes n lp gp = .arr l ∧ (l.length : Int) = n := by
  have hlen : (mock_generate notes n).length = n.toNat :=
    mock_generate_length_of_nonneg notes n (le_of_lt hn)
  constructor
  · rw [hlen]
    omega
  · refine ⟨(mock_generate notes n).map QARecord.toJson, ?_, ?_⟩
    · exact generate_fst_of_fallsToMock env notes n lp gp hfall
    · rw [List.length_map, hlen]
      omega

/-- C2 witness: two questions from two sentences with a configured LlamaCpp
backend whose attempt raises. -/
theorem c2_witness :
    (0 : Int) < 2 ∧ fallsToMock envAllFail "A. B" 2 (some "m") none = true ∧
    (((mock_generate "A. B" 2).length : Int) = 2 ∧
     ∃ l, generate_qa_from_notes envAllFail "A. B" 2 (some "m") none = .arr l ∧
       (l.length : Int) = 2) :=
  ⟨by decide, by decide,
    c2_heuristic_exact_count envAllFail "A. B" 2 (some "m") none (by decide) (by decide)⟩

/-- C10 counterexample: for `numQuestions = -1` and three sentence-like
units, `mock_generate` (and hence the orchestrator with no backend
configured) returns two records, not the empty sequence: the Python slice
`sentences[:-1]` keeps all but the last unit. -/
theorem c10_counterexample :
    (-1 : Int) ≤ 0 ∧
    mock_generate "A. B. C." (-1) = [mkBaseRecord "A", mkBaseRecord "B"] ∧
    mock_generate "A. B. C." (-1) ≠ [] ∧
    generate_qa_from_notes envAllFail "A. B. C." (-1) none none
      = .arr [(mkBaseRecord "A").toJson, (mkBaseRecord "B").toJson] :=
  ⟨by decide, by decide, by decide, rfl⟩

/-- C10 amended: a non-positive count is accepted without raising; for
`numQuestions = 0` the result of `mock_generate` (and of the orchestrator
with no backend configured) is empty, while for negative `numQuestions` the
result has one record per sentence-like unit in all but the last
`-numQuestions` units (Python slice semantics) and no padding, so it is
empty only when the notes have at most `-numQuestions` units. -/
theorem c10_amended_nonpositive (env : Env) (notes : String) (n : Int) (_hn : n ≤ 0) :
    mock_generate notes 0 = [] ∧
    generate_qa_from_notes env notes 0 none none = .arr [] ∧
    (n < 0 →
      (mock_generate notes n).length = (sentenceUnits notes).length - (-n).toNat) := by
  have h0 : mock_generate notes 0 = [] := by
    simp [mock_generate, pySliceTo]
  refine ⟨h0, ?_, ?_⟩
  · show (generate_qa_from_notes_log env notes 0 none none).1 = _
    simp [generate_qa_from_notes_log, genStage2, mockResult, h0]
  · intro hneg
    have hnot : ¬ (0 ≤ n) := by omega
    simp only [mock_generate, pySliceTo, if_neg hnot, List.length_append, List.length_map,
      List.length_take, List.length_replicate]
    omega

/-- C10 witness: the negative-count case at a concrete input. -/
theorem c10_witness :
    (-1 : Int) ≤ 0 ∧ (-1 : Int) < 0 ∧
    (mock_generate "A. B. C." (-1)).length
      = (sentenceUnits "A. B. C.").length - (-(-1) : Int).toNat :=
  ⟨by decide, by decide,
    (c10_amended_nonpositive envAllFail "A. B. C." (-1) (by decide)).2.2 (by decide)⟩

/-- C6 counterexample: with notes consisting of a single period (no
sentence-like unit) and no backend configured, the orchestrator returns one
padding record whose `text` is empty although the notes string is not. -/
theorem c6_counterexample :
    ("." : String) ≠ "" ∧
    generate_qa_from_notes envAllFail "." 1 none none
      = .arr [.obj [("question", .str "Summarize a key idea from the notes."),
                    ("answer", .str "This section explains one of the main concepts."),
                    ("text", .str "")]] :=
  ⟨by decide, rfl⟩

/-- C6 amended: every record produced by `mock_generate` (the heuristic path
of the orchestrator) has a non-empty question and answer, and its `text` is
empty only when the notes yield no sentence-like unit at all (which holds for
empty notes, but also e.g. for notes made only of periods, newlines and
whitespace); records obtained through a successful backend parse carry no
such guarantee. -/
theorem c6_amended_record_invariant (notes : String) (n : Int) (r : QARecord)
    (hr : r ∈ mock_generate notes n) :
    r.question ≠ "" ∧ r.answer ≠ "" ∧ (r.text = "" → sentenceUnits notes = []) := by
  unfold mock_generate at hr
  rcases List.mem_append.mp hr with hbase | hpad
  · rcases List.mem_map.mp hbase with ⟨s, hs, rfl⟩
    have hsu : s ∈ sentenceUnits notes := by
      unfold pySliceTo at hs
      split at hs
      · exact List.mem_of_mem_take hs
      · exact List.mem_of_mem_take hs
    have hsne : s ≠ "" := mem_sentenceUnits_ne_empty notes s hsu
    refine ⟨?_, ?_, ?_⟩
    · exact append_ne_empty_left _ _ (append_ne_empty_left _ _
        (str_ne_empty_of_data_cons _ 'W' _ rfl))
    · exact append_ne_empty_left _ _ (append_ne_empty_left _ _
        (str_ne_empty_of_data_cons _ 'T' _ rfl))
    · intro hc
      exact absurd hc hsne
  · have hr' : r = padRecord (sentenceUnits notes) := List.eq_of_mem_replicate hpad
    subst hr'
    refine ⟨str_ne_empty_of_data_cons _ 'S' _ rfl, str_ne_empty_of_data_cons _ 'T' _ rfl, ?_⟩
    intro hc
    cases hu : sentenceUnits notes with
    | nil => rfl
    | cons u us =>
      exfalso
      have : (padRecord (sentenceUnits notes)).text = u := by
        simp [padRecord, hu]
      rw [hc] at this
      exact mem_sentenceUnits_ne_empty notes u (by rw [hu]; exact List.mem_cons_self u us)
        this.symm

/-- C6 witness: a concrete base record of the heuristic generator. -/
theorem c6_witness :
    mkBaseRecord "A" ∈ mock_generate "A" 1 ∧
    ((mkBaseRecord "A").question ≠ "" ∧ (mkBaseRecord "A").answer ≠ "" ∧
     ((mkBaseRecord "A").text = "" → sentenceUnits "A" = [])) :=
  ⟨by decide, c6_amended_record_invariant "A" 1 (mkBaseRecord "A") (by decide)⟩

/-- C8: when the GPT4All engine returns a sequence of candidate completions,
the adapter parses the first candidate. -/
theorem c8_first_candidate (env : Env) (notes : String) (p : String) (n : Int)
    (c : String) (cs : List String)
    (h : env.gpt4all p (get_prompt notes n) = .ok (.seq (c :: cs))) :
    try_gpt4all_generate env notes p n = .ok (safe_json_parse c) := by
  simp [try_gpt4all_generate, h]

/-- C8 witness: a two-candidate sequence; the first candidate is parsed. -/
theorem c8_witness :
    envSeq.gpt4all "m" (get_prompt "N" 1) = .ok (.seq ("5" :: ["x"])) ∧
    try_gpt4all_generate envSeq "N" "m" 1 = .ok (safe_json_parse "5") :=
  ⟨rfl, c8_first_candidate envSeq "N" "m" 1 "5" ["x"] rfl⟩

/-- C1 counterexample: a configured LlamaCpp backend whose engine answers
with the bare JSON text `5` makes `generate_qa_from_notes` return the JSON
number 5, which is not a sequence of QA records. -/
theorem c1_counterexample :
    generate_qa_from_notes envNum "some notes" 3 (some "m") none = .num 5 0 ∧
    isQASeq (.num 5 0) = false :=
  ⟨rfl, rfl⟩

/-- C1 amended: `generate_qa_from_notes` always terminates with a JSON value
and never raises; that value is either the parser's output on some raw
backend text (an arbitrary JSON value, not necessarily a sequence of QA
records) or the heuristic generator's list, which is always a sequence of QA
records. -/
theorem c1_amended_total_result (env : Env) (notes : String) (n : Int)
    (lp gp : Option String) :
    (∃ raw : String, generate_qa_from_notes env notes n lp gp = safe_json_parse raw) ∨
    (generate_qa_from_notes env notes n lp gp = mockResult notes n ∧
     isQASeq (mockResult notes n) = true) := by
  have hstage2 : (∃ raw : String, (genStage2 env notes n gp).1 = safe_json_parse raw) ∨
      (genStage2 env notes n gp).1 = mockResult notes n := by
    cases gp with
    | none => right; rfl
    | some p =>
      cases hp : (p == "") with
      | true =>
        right
        simp [genStage2, hp]
      | false =>
        cases ho : env.gpt4all p (get_prompt notes n) with
        | ok raw =>
          cases raw with
          | str s =>
            left
            refine ⟨s, ?_⟩
            simp [genStage2, hp, try_gpt4all_generate, ho]
          | seq cands =>
            cases cands with
            | nil =>
              right
              simp [genStage2, hp, try_gpt4all_generate, ho]
            | cons c cs =>
              left
              refine ⟨c, ?_⟩
              simp [genStage2, hp, try_gpt4all_generate, ho]
        | exn =>
          right
          simp [genStage2, hp, try_gpt4all_generate, ho]
  have hmockseq := isQASeq_mockResult notes n
  unfold generate_qa_from_notes
  cases lp with
  | none =>
    simp only [generate_qa_from_notes_log]
    rcases hstage2 with ⟨raw, hraw⟩ | hmock
    · exact Or.inl ⟨raw, hraw⟩
    · exact Or.inr ⟨hmock, hmockseq⟩
  | some p =>
    cases hp : (p == "") with
    | true =>
      simp only [generate_qa_from_notes_log, hp, if_true]
      rcases hstage2 with ⟨raw, hraw⟩ | hmock
      · exact Or.inl ⟨raw, hraw⟩
      · exact Or.inr ⟨hmock, hmockseq⟩
    | false =>
      cases ho : env.llamacpp p (get_prompt notes n) with
      | ok raw =>
        left
        refine ⟨raw, ?_⟩
        simp [generate_qa_from_notes_log, hp, try_llamacpp_generate, ho]
      | exn =>
        have hexn : try_llamacpp_generate env notes p n = .exn := by
          simp [try_llamacpp_generate, ho]
        simp only [generate_qa_from_notes_log, hp, if_false, hexn]
        rcases hstage2 with ⟨raw, hraw⟩ | hmock
        · exact Or.inl ⟨raw, hraw⟩
        · exact Or.inr ⟨hmock, hmockseq⟩

/-- C4: when the first configured backend's engine call succeeds but its raw
text fails both parser tiers, the orchestrator returns the parser's empty
list as the final result with no further backend attempt and no heuristic
fallback (the log records only the one attempt). -/
theorem c4_success_consumes_chain (env : Env) (notes : String) (n : Int)
    (p : String) (gp : Option String) (raw : String)
    (hp : (p == "") = false)
    (hok : env.llamacpp p (get_prompt notes n) = .ok raw)
    (hfail : bothTiersFail raw = true) :
    generate_qa_from_notes_log env notes n (some p) gp = (.arr [], [.tryingLlama]) := by
  have hparse : safe_json_parse raw = .arr [] := by
    unfold bothTiersFail at hfail
    unfold safe_json_parse
    cases hl : json_loads raw with
    | some v =>
      rw [hl] at hfail
      simp at hfail
    | none =>
      rw [hl] at hfail
      simp only [Option.isNone_none, Bool.true_and] at hfail
      cases hb : bracketSlice raw with
      | none => rfl
      | some sub =>
        rw [hb] at hfail
        change (json_loads sub).isNone = true at hfail
        show (json_loads sub).getD (JsonValue.arr []) = JsonValue.arr []
        cases hs : json_loads sub with
        | some v =>
          rw [hs] at hfail
          simp at hfail
        | none => rfl
  simp [generate_qa_from_notes_log, hp, try_llamacpp_generate, hok, hparse]

/-- C4 witness: the primary backend succeeds with bracket-free prose; the
secondary backend is configured but never attempted, and the result is
empty. -/
theorem c4_witness :
    ("m" == "") = false ∧
    envNoBrackets.llamacpp "m" (get_prompt "N" 2) = .ok "no brackets here" ∧
    bothTiersFail "no brackets here" = true ∧
    generate_qa_from_notes_log envNoBrackets "N" 2 (some "m") (some "g")
      = (.arr [], [.tryingLlama]) :=
  ⟨by decide, rfl, by decide,
    c4_success_consumes_chain envNoBrackets "N" 2 "m" (some "g") "no brackets here"
      (by decide) rfl (by decide)⟩

theorem genStage2_props (env : Env) (notes : String) (n : Int) (gp : Option String) :
    List.Sublist (genStage2 env notes n gp).2
      [LogEvent.tryingGpt, LogEvent.gptFailed, LogEvent.usingMock] ∧
    LogEvent.tryingLlama ∉ (genStage2 env notes n gp).2 ∧
    (LogEvent.tryingGpt ∈ (genStage2 env notes n gp).2 ↔ configured gp = true) ∧
    (LogEvent.usingMock ∈ (genStage2 env notes n gp).2 ↔
      (!configured gp || gptAttemptFails env notes n gp) = true) ∧
    (LogEvent.usingMock ∈ (genStage2 env notes n gp).2 →
      (genStage2 env notes n gp).1 = mockResult notes n) := by
  cases gp with
  | none =>
    have h : genStage2 env notes n none = (mockResult notes n, [LogEvent.usingMock]) := rfl
    rw [h]
    dsimp only
    refine ⟨?_, ?_, ?_, ?_, ?_⟩
    · decide
    · decide
    · simp [configured]
    · simp [configured]
    · intro
      rfl
  | some p =>
    cases hp : (p == "") with
    | true =>
      have h : genStage2 env notes n (some p) = (mockResult notes n, [LogEvent.usingMock]) := by
        simp [genStage2, hp]
      rw [h]
      dsimp only
      refine ⟨?_, ?_, ?_, ?_, ?_⟩
      · decide
      · decide
      · simp [configured, hp]
      · simp [configured, hp]
      · intro
        rfl
    | false =>
      cases ho : try_gpt4all_generate env notes p n with
      | ok v =>
        have h : genStage2 env notes n (some p) = (v, [LogEvent.tryingGpt]) := by
          simp [genStage2, hp, ho]
        rw [h]
        dsimp only
        refine ⟨?_, ?_, ?_, ?_, ?_⟩
        · show List.Sublist [LogEvent.tryingGpt]
            [LogEvent.tryingGpt, LogEvent.gptFailed, LogEvent.usingMock]
          decide
        · decide
        · simp [configured, hp]
        · simp [configured, hp, gptAttemptFails, ho, ExtOutcome.isExn]
        · intro hm
          simp at hm
      | exn =>
        have h : genStage2 env notes n (some p)
            = (mockResult notes n, [LogEvent.tryingGpt, LogEvent.gptFailed, LogEvent.usingMock]) := by
          simp [genStage2, hp, ho]
        rw [h]
        dsimp only
        refine ⟨?_, ?_, ?_, ?_, ?_⟩
        · decide
        · decide
        · simp [configured, hp]
        · simp [configured, hp, gptAttemptFails, ho, ExtOutcome.isExn]
        · intro
          rfl

/-- C5: backends are attempted in fixed priority order, LlamaCpp before
GPT4All, at most one attempt each and only when the path is configured
(truthy); an exception falls through to the next step; and the heuristic
generator is used exactly when no backend is configured or every configured
backend's attempt raised, in which case its list is the result. -/
theorem c5_priority_order (env : Env) (notes : String) (n : Int) (lp gp : Option String) :
    List.Sublist (generate_qa_from_notes_log env notes n lp gp).2
      [LogEvent.tryingLlama, LogEvent.llamaFailed, LogEvent.tryingGpt, LogEvent.gptFailed,
       LogEvent.usingMock] ∧
    (LogEvent.tryingLlama ∈ (generate_qa_from_notes_log env notes n lp gp).2 ↔
      configured lp = true) ∧
    (LogEvent.tryingGpt ∈ (generate_qa_from_notes_log env notes n lp gp).2 ↔
      (configured gp = true ∧
       (configured lp = false ∨ llamaAttemptFails env notes n lp = true))) ∧
    (LogEvent.usingMock ∈ (generate_qa_from_notes_log env notes n lp gp).2 ↔
      fallsToMock env notes n lp gp = true) ∧
    (LogEvent.usingMock ∈ (generate_qa_from_notes_log env notes n lp gp).2 →
      (generate_qa_from_notes_log env notes n lp gp).1 = mockResult notes n) := by
  obtain ⟨s1, s2, s3, s4, s5⟩ := genStage2_props env notes n gp
  have hrest : List.Sublist [LogEvent.tryingGpt, LogEvent.gptFailed, LogEvent.usingMock]
      [LogEvent.tryingLlama, LogEvent.llamaFailed, LogEvent.tryingGpt, LogEvent.gptFailed,
       LogEvent.usingMock] := by decide
  cases lp with
  | none =>
    have hlog : generate_qa_from_notes_log env notes n none gp = genStage2 env notes n gp := rfl
    rw [hlog]
    refine ⟨s1.trans hrest, ?_, ?_, ?_, s5⟩
    · simp [s2, configured]
    · rw [s3]
      simp [configured]
    · rw [s4]
      simp [fallsToMock, configured]
  | some p =>
    cases hp : (p == "") with
    | true =>
      have hlog : generate_qa_from_notes_log env notes n (some p) gp
          = genStage2 env notes n gp := by
        simp [generate_qa_from_notes_log, hp]
      rw [hlog]
      refine ⟨s1.trans hrest, ?_, ?_, ?_, s5⟩
      · simp [s2, configured, hp]
      · rw [s3]
        simp [configured, hp]
      · rw [s4]
        simp [fallsToMock, configured, hp]
    | false =>
      cases ho : try_llamacpp_generate env notes p n with
      | ok v =>
        have hlog : generate_qa_from_notes_log env notes n (some p) gp
            = (v, [LogEvent.tryingLlama]) := by
          simp [generate_qa_from_notes_log, hp, ho]
        rw [hlog]
        dsimp only
        refine ⟨?_, by simp [configured, hp], ?_, ?_, by simp⟩
        · show List.Sublist [LogEvent.tryingLlama]
            [LogEvent.tryingLlama, LogEvent.llamaFailed, LogEvent.tryingGpt, LogEvent.gptFailed,
             LogEvent.usingMock]
          decide
        · simp [configured, hp, llamaAttemptFails, ho, ExtOutcome.isExn]
        · simp [fallsToMock, configured, hp, llamaAttemptFails, ho, ExtOutcome.isExn]
      | exn =>
        have hlog : generate_qa_from_notes_log env notes n (some p) gp
            = ((genStage2 env notes n gp).1,
               LogEvent.tryingLlama :: LogEvent.llamaFailed :: (genStage2 env notes n gp).2) := by
          simp [generate_qa_from_notes_log, hp, ho]
        rw [hlog]
        refine ⟨List.Sublist.cons₂ _ (List.Sublist.cons₂ _ s1), ?_, ?_, ?_, ?_⟩
        · simp [configured, hp]
        · rw [List.mem_cons, List.mem_cons]
          simp only [reduceCtorEq, false_or]
          rw [s3]
          simp [configured, hp, llamaAttemptFails, ho, ExtOutcome.isExn]
        · rw [List.mem_cons, List.mem_cons]
          simp only [reduceCtorEq, false_or]
          rw [s4]
          simp [fallsToMock, configured, hp, llamaAttemptFails, ho, ExtOutcome.isExn]
        · intro hm
          rw [List.mem_cons, List.mem_cons] at hm
          simp only [reduceCtorEq, false_or] at hm
          exact s5 hm

theorem head?_dropWhile_not (p : Char → Bool) (l : List Char) :
    ∀ c, (l.dropWhile p).head? = some c → p c = false := by
  induction l with
  | nil =>
    intro c h
    simp at h
  | cons a t ih =>
    intro c h
    rw [List.dropWhile_cons] at h
    cases hp : p a with
    | true =>
      rw [hp] at h
      simp only [if_pos rfl] at h
      exact ih c h
    | false =>
      rw [hp] at h
      rw [if_neg (by simp)] at h
      simp only [List.head?_cons, Option.some.injEq] at h
      rw [← h]
      exact hp

theorem getLast?_dropWhile_cases (p : Char → Bool) (l : List Char) :
    l.dropWhile p = [] ∨ (l.dropWhile p).getLast? = l.getLast? := by
  induction l with
  | nil => left; rfl
  | cons a t ih =>
    rw [List.dropWhile_cons]
    cases hp : p a with
    | true =>
      rw [if_pos rfl]
      by_cases hdt : t.dropWhile p = []
      · left
        exact hdt
      · right
        rcases ih with h | h
        · exact absurd h hdt
        · rw [h]
          cases t with
          | nil => exact absurd rfl hdt
          | cons b u => simp [List.getLast?_cons_cons]
    | false =>
      rw [if_neg (by simp)]
      right
      rfl

theorem splitChars_ne_nil (p : Char → Bool) (l : List Char) : splitChars p l ≠ [] := by
  cases l with
  | nil => simp [splitChars]
  | cons c cs =>
    simp only [splitChars]
    by_cases hp : p c
    · simp [hp]
    · simp only [hp, if_false]
      cases splitChars p cs with
      | nil => simp
      | cons g gs => simp

theorem splitChars_sep_free (p : Char → Bool) (l : List Char) :
    ∀ g ∈ splitChars p l, ∀ c ∈ g, p c = false := by
  induction l with
  | nil =>
    intro g hg c hc
    simp [splitChars] at hg
    subst hg
    simp at hc
  | cons a t ih =>
    intro g hg c hc
    simp only [splitChars] at hg
    by_cases hp : p a
    · rw [if_pos hp] at hg
      rcases List.mem_cons.mp hg with rfl | hg'
      · simp at hc
      · exact ih g hg' c hc
    · rw [if_neg hp] at hg
      cases hrec : splitChars p t with
      | nil => exact absurd hrec (splitChars_ne_nil p t)
      | cons g0 gs =>
        rw [hrec] at hg
        rcases List.mem_cons.mp hg with rfl | hg'
        · rcases List.mem_cons.mp hc with rfl | hc'
          · exact Bool.eq_false_iff.mpr hp
          · exact ih g0 (by rw [hrec]; exact List.mem_cons_self g0 gs) c hc'
        · exact ih g (by rw [hrec]; exact List.mem_cons_of_mem g0 hg') c hc

theorem flatten_splitChars (p : Char → Bool) (l : List Char) :
    (splitChars p l).flatten = l.filter (fun c => !p c) := by
  induction l with
  | nil => simp [splitChars]
  | cons a t ih =>
    simp only [splitChars]
    by_cases hp : p a
    · rw [if_pos hp]
      simp [List.filter_cons, hp, ih]
    · rw [if_neg hp]
      cases hrec : splitChars p t with
      | nil => exact absurd hrec (splitChars_ne_nil p t)
      | cons g0 gs =>
        rw [hrec] at ih
        simp only [List.flatten_cons]
        rw [List.filter_cons]
        have hpb : (!p a) = true := by simp [hp]
        rw [hpb]
        simp [← ih]

theorem pyStrip_sublist (l : List Char) : List.Sublist (pyStrip l) l := by
  unfold pyStrip
  have h1 : List.Sublist (((l.dropWhile isPySpace).reverse.dropWhile isPySpace).reverse)
      ((l.dropWhile isPySpace).reverse.reverse) :=
    List.Sublist.reverse (List.dropWhile_sublist _)
  rw [List.reverse_reverse] at h1
  exact h1.trans (List.dropWhile_sublist _)

theorem flatten_sublist_of_sublist (X Y : List (List Char)) (h : List.Sublist X Y) :
    List.Sublist X.flatten Y.flatten := by
  induction h with
  | slnil => exact List.Sublist.refl _
  | cons a _ ih =>
    rw [List.flatten_cons]
    exact ih.trans (List.sublist_append_right a _)
  | cons₂ a _ ih =>
    rw [List.flatten_cons, List.flatten_cons]
    exact List.Sublist.append_left ih a

theorem flatten_map_pyStrip_sublist (L : List (List Char)) :
    List.Sublist ((L.map pyStrip).flatten) L.flatten := by
  induction L with
  | nil => exact List.Sublist.refl _
  | cons a t ih =>
    simp only [List.map_cons, List.flatten_cons]
    exact List.Sublist.append (pyStrip_sublist a) ih

theorem pyStrip_head_not_space (l : List Char) (c : Char)
    (h : (pyStrip l).head? = some c) : isPySpace c = false := by
  unfold pyStrip at h
  rw [List.head?_reverse] at h
  rcases getLast?_dropWhile_cases isPySpace (l.dropWhile isPySpace).reverse with h0 | h0
  · rw [h0] at h
    simp at h
  · rw [h0, List.getLast?_reverse] at h
    exact head?_dropWhile_not isPySpace l c h

theorem pyStrip_getLast_not_space (l : List Char) (c : Char)
    (h : (pyStrip l).getLast? = some c) : isPySpace c = false := by
  unfold pyStrip at h
  rw [List.getLast?_reverse] at h
  exact head?_dropWhile_not isPySpace _ c h

/-- C7: for a nonnegative count, `mock_generate` maps the first
`numQuestions` sentence-like units to records whose `question` contains the
unit's first 40 characters, whose `answer` contains its first 80 characters
and whose `text` is the full unit, padding with the fixed canned record
whose `text` is the first unit (or the empty string when there is none); the
units are non-empty, contain no line break or period, are stripped of
surrounding whitespace, and appear in their original order within the
notes. -/
theorem c7_mock_structure (notes : String) (n : Int) (hn : 0 ≤ n) :
    mock_generate notes n
      = ((sentenceUnits notes).take n.toNat).map mkBaseRecord
        ++ List.replicate (n.toNat - min n.toNat (sentenceUnits notes).length)
            (padRecord (sentenceUnits notes)) ∧
    (∀ s : String, (mkBaseRecord s).text = s ∧
      (∃ a b, (mkBaseRecord s).question = a ++ pyTakeStr 40 s ++ b) ∧
      (∃ a b, (mkBaseRecord s).answer = a ++ pyTakeStr 80 s ++ b)) ∧
    (padRecord (sentenceUnits notes)).question = "Summarize a key idea from the notes." ∧
    (padRecord (sentenceUnits notes)).answer
      = "This section explains one of the main concepts." ∧
    (padRecord (sentenceUnits notes)).text = (sentenceUnits notes).headD "" ∧
    (∀ u ∈ sentenceUnits notes, u ≠ "" ∧
      (∀ c ∈ u.data, sepChar c = false) ∧
      (∀ c, u.data.head? = some c → isPySpace c = false) ∧
      (∀ c, u.data.getLast? = some c → isPySpace c = false)) ∧
    List.Sublist (((sentenceUnits notes).map String.data).flatten) notes.data := by
  refine ⟨?_, ?_, rfl, rfl, rfl, ?_, ?_⟩
  · simp only [mock_generate, pySliceTo, if_pos hn, List.length_map, List.length_take]
    congr 1
    congr 1
    omega
  · intro s
    exact ⟨rfl, ⟨"What is the main idea of: \x27", "...\x27", rfl⟩,
      ⟨"The main idea is that ", ".", rfl⟩⟩
  · intro u hu
    refine ⟨mem_sentenceUnits_ne_empty notes u hu, ?_⟩
    unfold sentenceUnits at hu
    rcases List.mem_map.mp hu with ⟨l, hl, rfl⟩
    have hl' := List.mem_of_mem_filter hl
    rcases List.mem_map.mp hl' with ⟨piece, hpiece, rfl⟩
    refine ⟨?_, ?_, ?_⟩
    · intro c hc
      have hcp : c ∈ piece := (pyStrip_sublist piece).subset hc
      exact splitChars_sep_free sepChar notes.data piece hpiece c hcp
    · intro c hc
      exact pyStrip_head_not_space piece c hc
    · intro c hc
      exact pyStrip_getLast_not_space piece c hc
  · have hX : (sentenceUnits notes).map String.data
        = ((splitChars sepChar notes.data).map pyStrip).filter (fun l => !l.isEmpty) := by
      unfold sentenceUnits
      rw [List.map_map]
      have hid : String.data ∘ String.mk = id := rfl
      rw [hid, List.map_id]
    rw [hX]
    have h1 : List.Sublist
        ((((splitChars sepChar notes.data).map pyStrip).filter (fun l => !l.isEmpty)).flatten)
        (((splitChars sepChar notes.data).map pyStrip).flatten) :=
      flatten_sublist_of_sublist _ _ (List.filter_sublist _)
    have h2 := flatten_map_pyStrip_sublist (splitChars sepChar notes.data)
    have h3 : (splitChars sepChar notes.data).flatten
        = notes.data.filter (fun c => !sepChar c) := flatten_splitChars sepChar notes.data
    refine (h1.trans h2).trans ?_
    rw [h3]
    exact List.filter_sublist _

/-- C7 witness: the structural equation at three sentences and five requested
questions. -/
theorem c7_witness :
    (0 : Int) ≤ 5 ∧
    mock_generate "A. B. C." 5
      = ((sentenceUnits "A. B. C.").take (5 : Int).toNat).map mkBaseRecord
        ++ List.replicate ((5 : Int).toNat - min (5 : Int).toNat (sentenceUnits "A. B. C.").length)
            (padRecord (sentenceUnits "A. B. C.")) :=
  ⟨by decide, (c7_mock_structure "A. B. C." 5 (by decide)).1⟩

/-- C9: `get_prompt` is a total pure function of its two arguments (it is
the concatenation of fixed literals with the rendered count and the raw
notes, so it has no side effects or failure modes); its output contains the
decimal rendering of the question count, names each of the keys `question`,
`answer` and `text`, and carries the raw notes verbatim at the end, followed
only by the final newline of the template. -/
theorem c9_prompt_contents (notes : String) (n : Int) :
    (∃ a b : String, get_prompt notes n = a ++ toString n ++ b) ∧
    (∃ a b : String, get_prompt notes n = a ++ "question" ++ b) ∧
    (∃ a b : String, get_prompt notes n = a ++ "answer" ++ b) ∧
    (∃ a b : String, get_prompt notes n = a ++ "text" ++ b) ∧
    (∃ a : String, get_prompt notes n = a ++ notes ++ "\n") := by
  have hq : promptPart2 = " " ++ "question"
      ++ "-and-answer pairs.\nEach answer should be short (1-2 sentences) and accurate based on the notes.\nInclude the specific source text from the notes the Q&A is based on.\nReturn ONLY valid JSON: a list of objects with keys \"question\", \"answer\", and \"text\".\n\nExample:\n[\n  \x7b\n    \"question\": \"What is X?\",\n    \"answer\": \"X is ...\",\n    \"text\": \"The sentence or passage from notes about X.\"\n  \x7d\n]\n\nNotes:\n" := rfl
  have ha : promptPart2 = " question-and-" ++ "answer"
      ++ " pairs.\nEach answer should be short (1-2 sentences) and accurate based on the notes.\nInclude the specific source text from the notes the Q&A is based on.\nReturn ONLY valid JSON: a list of objects with keys \"question\", \"answer\", and \"text\".\n\nExample:\n[\n  \x7b\n    \"question\": \"What is X?\",\n    \"answer\": \"X is ...\",\n    \"text\": \"The sentence or passage from notes about X.\"\n  \x7d\n]\n\nNotes:\n" := rfl
  have ht : promptPart2 = " question-and-answer pairs.\nEach answer should be short (1-2 sentences) and accurate based on the notes.\nInclude the specific source "
      ++ "text"
      ++ " from the notes the Q&A is based on.\nReturn ONLY valid JSON: a list of objects with keys \"question\", \"answer\", and \"text\".\n\nExample:\n[\n  \x7b\n    \"question\": \"What is X?\",\n    \"answer\": \"X is ...\",\n    \"text\": \"The sentence or passage from notes about X.\"\n  \x7d\n]\n\nNotes:\n" := rfl
  refine ⟨⟨promptPart1, promptPart2 ++ notes ++ "\n", by simp [get_prompt, strAppend_assoc]⟩,
    ⟨promptPart1 ++ toString n ++ " ", ?_⟩, ⟨promptPart1 ++ toString n ++ " question-and-", ?_⟩,
    ⟨promptPart1 ++ toString n
      ++ " question-and-answer pairs.\nEach answer should be short (1-2 sentences) and accurate based on the notes.\nInclude the specific source ", ?_⟩,
    ⟨promptPart1 ++ toString n ++ promptPart2, by simp [get_prompt, strAppend_assoc]⟩⟩
  · exact ⟨"-and-answer pairs.\nEach answer should be short (1-2 sentences) and accurate based on the notes.\nInclude the specific source text from the notes the Q&A is based on.\nReturn ONLY valid JSON: a list of objects with keys \"question\", \"answer\", and \"text\".\n\nExample:\n[\n  \x7b\n    \"question\": \"What is X?\",\n    \"answer\": \"X is ...\",\n    \"text\": \"The sentence or passage from notes about X.\"\n  \x7d\n]\n\nNotes:\n" ++ notes ++ "\n", by
      rw [get_prompt, hq]
      exact str_eq_of_data _ _ (by simp [strData_append, List.append_assoc])⟩
  · exact ⟨" pairs.\nEach answer should be short (1-2 sentences) and accurate based on the notes.\nInclude the specific source text from the notes the Q&A is based on.\nReturn ONLY valid JSON: a list of objects with keys \"question\", \"answer\", and \"text\".\n\nExample:\n[\n  \x7b\n    \"question\": \"What is X?\",\n    \"answer\": \"X is ...\",\n    \"text\": \"The sentence or passage from notes about X.\"\n  \x7d\n]\n\nNotes:\n" ++ notes ++ "\n", by
      rw [get_prompt, ha]
      exact str_eq_of_data _ _ (by simp [strData_append, List.append_assoc])⟩
  · exact ⟨" from the notes the Q&A is based on.\nReturn ONLY valid JSON: a list of objects with keys \"question\", \"answer\", and \"text\".\n\nExample:\n[\n  \x7b\n    \"question\": \"What is X?\",\n    \"answer\": \"X is ...\",\n    \"text\": \"The sentence or passage from notes about X.\"\n  \x7d\n]\n\nNotes:\n" ++ notes ++ "\n", by
      rw [get_prompt, ht]
      exact str_eq_of_data _ _ (by simp [strData_append, List.append_assoc])⟩

theorem findIdxFrom_append_not (p : Char → Bool) (pre l : List Char)
    (hpre : ∀ c ∈ pre, p c = false) :
    findIdxFrom p (pre ++ l) = (findIdxFrom p l).map (· + pre.length) := by
  induction pre with
  | nil =>
    simp only [List.nil_append, List.length_nil]
    cases findIdxFrom p l <;> simp
  | cons a t ih =>
    have hpa : p a = false := hpre a (List.mem_cons_self a t)
    have hpre' : ∀ c ∈ t, p c = false := fun c hc => hpre c (List.mem_cons_of_mem a hc)
    rw [List.cons_append]
    show (if p a then some 0 else (findIdxFrom p (t ++ l)).map (· + 1))
      = (findIdxFrom p l).map (· + (a :: t).length)
    rw [if_neg (by simp [hpa]), ih hpre']
    cases findIdxFrom p l with
    | none => simp
    | some i =>
      simp [List.length_cons, Nat.add_assoc]

/-- C3 counterexample: on the input `5` the strict first tier succeeds with
the JSON number 5, which `safe_json_parse` returns as is — not a sequence of
QA records. -/
theorem c3_counterexample :
    safe_json_parse "5" = .num 5 0 ∧ isQASeq (.num 5 0) = false :=
  ⟨rfl, rfl⟩

/-- C3 amended: `safe_json_parse` never raises and returns a JSON value (not
necessarily a sequence of QA records): whatever value strict parsing of the
whole string yields; on strict failure, when the string decomposes around a
segment that starts at its first `[` and ends at its last `]` (with the `]`
after the `[`), the strict parse of that inclusive segment, or the empty
list when that also fails; and the empty list when no such bracket pair
exists. -/
theorem c3_amended_two_tier (s : String) :
    (∀ v, json_loads s = some v → safe_json_parse s = v) ∧
    (json_loads s = none →
      ∀ pre mid suf : List Char, s.data = pre ++ mid ++ suf →
        mid.head? = some '[' → mid.getLast? = some ']' →
        '[' ∉ pre → ']' ∉ suf →
        safe_json_parse s = (json_loads (String.mk mid)).getD (.arr [])) ∧
    (json_loads s = none →
      (pyFind s '[' = -1 ∨ pyRFind s ']' = -1 ∨ pyRFind s ']' ≤ pyFind s '[') →
      safe_json_parse s = .arr []) := by
  refine ⟨?_, ?_, ?_⟩
  · intro v h
    unfold safe_json_parse
    rw [h]
  · intro hnone pre mid suf hsplit hhead hlast hpre hsuf
    have hpreb : ∀ c ∈ pre, (c == '[') = false := by
      intro c hc
      rw [beq_eq_false_iff_ne]
      intro heq
      exact hpre (heq ▸ hc)
    have hsufb : ∀ c ∈ suf.reverse, (c == ']') = false := by
      intro c hc
      rw [beq_eq_false_iff_ne]
      intro heq
      exact hsuf (heq ▸ (List.mem_reverse.mp hc))
    obtain ⟨mid1, hmid⟩ : ∃ t, mid = '[' :: t := by
      cases hm : mid with
      | nil =>
        rw [hm] at hhead
        simp at hhead
      | cons a u =>
        rw [hm] at hhead
        simp at hhead
        exact ⟨u, by rw [hhead]⟩
    obtain ⟨mid2, hmid2⟩ : ∃ t, mid.reverse = ']' :: t := by
      have hm : mid.reverse.head? = some ']' := by
        rw [List.head?_reverse]
        exact hlast
      cases hmr : mid.reverse with
      | nil =>
        rw [hmr] at hm
        simp at hm
      | cons a u =>
        rw [hmr] at hm
        simp at hm
        exact ⟨u, by rw [hm]⟩
    have hlen2 : 2 ≤ mid.length := by
      cases mid with
      | nil => simp at hhead
      | cons a u =>
        cases u with
        | nil =>
          simp at hhead hlast
          rw [hhead] at hlast
          exact absurd hlast (by decide)
        | cons b w => simp [List.length_cons]
    have hfind : pyFind s '[' = (pre.length : Int) := by
      unfold pyFind
      rw [hsplit, List.append_assoc, findIdxFrom_append_not _ pre _ hpreb, hmid]
      simp [findIdxFrom]
    have hrfind : pyRFind s ']' = (pre.length : Int) + (mid.length : Int) - 1 := by
      unfold pyRFind
      rw [hsplit, List.append_assoc, List.reverse_append, List.reverse_append,
        List.append_assoc, findIdxFrom_append_not _ suf.reverse _ hsufb, hmid2]
      simp [findIdxFrom, List.length_append, List.length_reverse]
      omega
    have hguard : pyFind s '[' ≠ -1 ∧ pyRFind s ']' ≠ -1 ∧ pyFind s '[' < pyRFind s ']' := by
      rw [hfind, hrfind]
      refine ⟨by omega, by omega, by omega⟩
    have hslice : bracketSlice s = some (String.mk mid) := by
      unfold bracketSlice
      rw [if_pos hguard, hfind, hrfind]
      have h1 : ((pre.length : Int)).toNat = pre.length := by omega
      have h2 : ((pre.length : Int) + (mid.length : Int) - 1).toNat
          = pre.length + mid.length - 1 := by omega
      rw [h1, h2, hsplit, List.append_assoc, List.drop_left]
      have h3 : pre.length + mid.length - 1 + 1 - pre.length = mid.length := by omega
      rw [h3, List.take_left]
    unfold safe_json_parse
    rw [hnone, hslice]
  · intro hnone hcond
    have hneg : ¬ (pyFind s '[' ≠ -1 ∧ pyRFind s ']' ≠ -1 ∧ pyFind s '[' < pyRFind s ']') := by
      rcases hcond with h | h | h <;>
        · intro hc
          rcases hc with ⟨h1, h2, h3⟩
          omega
    unfold safe_json_parse bracketSlice
    rw [hnone, if_neg hneg]

/-- C3 witness: the bracket-scan recovery on model output that wraps the JSON
list in prose. -/
theorem c3_witness :
    json_loads "Sure! [\x22a\x22] ok" = none ∧
    safe_json_parse "Sure! [\x22a\x22] ok"
      = (json_loads (String.mk ("[\x22a\x22]" : String).data)).getD (.arr []) :=
  ⟨rfl,
    (c3_amended_two_tier "Sure! [\x22a\x22] ok").2.1 rfl
      ("Sure! " : String).data ("[\x22a\x22]" : String).data (" ok" : String).data
      rfl rfl rfl (by decide) (by decide)⟩
